import Mathlib

/-!
Verification of the Calendar Synchronization and Token Lifecycle Engine
(src/lib/calendar.ts, src/app/api/calendar/sync/route.ts,
src/app/api/calendar/events/route.ts).

The TypeScript source is shallowly embedded: optional string fields become
`Option String` (JavaScript `undefined`/`null` ↦ `none`), JavaScript
truthiness on strings is the explicit `strTruthy` test (both absence and
the empty string are falsy), `??` is `jsNullish`, and `x || null` on an
optional string is `truthyOrNone`.  Network calls are passed in as explicit
outcome values (`Except`), and every persistent-store effect is returned in
an explicit effect log or an explicit store value, so that "zero network
calls" and "zero writes" are statable.
-/

namespace FocusTask

/-- ASCII whitespace, modelling the characters `String.prototype.trim`
removes for the inputs this app sees (space, tab, LF, CR, VT, FF). -/
def jsWhitespace (c : Char) : Bool :=
  c = ' ' || c = '\t' || c = '\n' || c = '\r' || c = '\x0b' || c = '\x0c'

/-- Models JavaScript `s.trim()`: drop whitespace from both ends. -/
def jsTrim (s : String) : String :=
  ⟨((s.data.dropWhile jsWhitespace).reverse.dropWhile jsWhitespace).reverse⟩

/-- Split a character list at every comma (models `s.split(",")`). -/
def splitCommaAux : List Char → List (List Char)
  | [] => [[]]
  | c :: rest =>
    match splitCommaAux rest with
    | [] => [[]]
    | g :: gs => if c = ',' then [] :: g :: gs else (c :: g) :: gs

/-- Models JavaScript `s.split(",")`. -/
def jsSplitComma (s : String) : List String :=
  (splitCommaAux s.data).map (fun cs => ⟨cs⟩)

/-- JavaScript truthiness of a `string | null | undefined` value:
`null`/`undefined` and the empty string are falsy. -/
def strTruthy : Option String → Bool
  | none => false
  | some s => s != ""

/-- The string carried by a truthy optional string (`""` for absence;
only used under a `strTruthy` guard). -/
def strVal : Option String → String
  | none => ""
  | some s => s

/-- JavaScript `a ?? b` on optional values. -/
def jsNullish {α : Type} : Option α → Option α → Option α
  | some x, _ => some x
  | none, b => b

/-- JavaScript `x || null` on an optional string: a falsy value
(absent or empty) collapses to `null`. -/
def truthyOrNone (o : Option String) : Option String :=
  if strTruthy o then o else none

/-- ASCII lowercasing of a string (for the `/i` regex flag). -/
def lowerAscii (s : String) : String :=
  ⟨s.data.map Char.toLower⟩

/-- Models the test `/^https?:\/\//i.test(s)`: case-insensitive check that
`s` starts with `http://` or `https://`. -/
def isHttpUrl (s : String) : Bool :=
  "http://".data.isPrefixOf (lowerAscii s).data ||
  "https://".data.isPrefixOf (lowerAscii s).data

/-! ## Remote (Google-shaped) event model — `type GoogleEvent` -/

/-- `type GoogleEventDateTime` from src/lib/calendar.ts. -/
structure GoogleEventDateTime where
  dateTime : Option String := none
  date : Option String := none
  timeZone : Option String := none
  deriving DecidableEq, Repr

/-- One entry of `GoogleEvent.attendees`. -/
structure Attendee where
  email : Option String := none
  deriving DecidableEq, Repr

/-- `type GoogleEvent` from src/lib/calendar.ts (`end` is a reserved word
in Lean, so the field is `end_`). -/
structure GoogleEvent where
  id : String
  summary : Option String := none
  start : Option GoogleEventDateTime := none
  end_ : Option GoogleEventDateTime := none
  attendees : Option (List Attendee) := none
  location : Option String := none
  hangoutLink : Option String := none
  htmlLink : Option String := none
  updated : Option String := none
  status : Option String := none
  deriving DecidableEq, Repr

/-- A JavaScript `Date` value, represented by the string handed to the
`Date` constructor (the code never inspects the parsed value, it only
stores it and tests it for `null`). -/
structure JsDate where
  iso : String
  deriving DecidableEq, Repr

/-- `parseDateTime` from src/lib/calendar.ts: absent spec ↦ null; a truthy
`dateTime` wins; otherwise a truthy `date` is read as UTC midnight by
appending `T00:00:00.000Z`; otherwise null. -/
def parseDateTime : Option GoogleEventDateTime → Option JsDate
  | none => none
  | some v =>
    if strTruthy v.dateTime then some ⟨strVal v.dateTime⟩
    else if strTruthy v.date then some ⟨strVal v.date ++ "T00:00:00.000Z"⟩
    else none

/-- `getGoogleMeetOrLocationLink` from src/lib/calendar.ts. -/
def getGoogleMeetOrLocationLink (event : GoogleEvent) : Option String :=
  if strTruthy event.hangoutLink then event.hangoutLink
  else if strTruthy event.location && isHttpUrl (strVal event.location) then
    event.location
  else event.htmlLink

/-! ## Token manager — `getGoogleAccessTokenForUser` -/

/-- The account credential record (Prisma `Account` row), nullable columns
as options. -/
structure Account where
  id : String
  userId : String
  provider : String
  access_token : Option String := none
  refresh_token : Option String := none
  expires_at : Option Int := none
  scope : Option String := none
  token_type : Option String := none
  deriving DecidableEq, Repr

/-- The JSON body of a successful token-endpoint response. -/
structure TokenResponse where
  access_token : String
  expires_in : Int
  refresh_token : Option String := none
  scope : Option String := none
  token_type : Option String := none
  deriving DecidableEq, Repr

/-- The `data` of the one `prisma.account.update` call performed on a
successful refresh. -/
structure AccountUpdate where
  access_token : String
  expires_at : Int
  refresh_token : Option String
  scope : Option String
  token_type : Option String
  deriving DecidableEq, Repr

/-- The error taxonomy raised by `getGoogleAccessTokenForUser`. -/
inductive TokenError where
  | accountNotConnected
  | refreshTokenMissing
  | tokenRefreshFailed (details : String)
  deriving DecidableEq, Repr

deriving instance DecidableEq for Except

/-- The observable outcome of one `getGoogleAccessTokenForUser` call:
its returned/thrown value plus an effect log (number of token-endpoint
calls, list of account-row writes). -/
structure TokenOutcome where
  result : Except TokenError String
  refreshCalls : Nat
  writes : List AccountUpdate
  deriving DecidableEq, Repr

/-- `getGoogleAccessTokenForUser` from src/lib/calendar.ts.  The account
lookup result, the clock (`nowSeconds`) and the token-endpoint outcome
(`.error body` for a non-ok HTTP response) are explicit inputs. -/
def getGoogleAccessTokenForUser (account? : Option Account) (nowSeconds : Int)
    (refreshResponse : Except String TokenResponse) : TokenOutcome :=
  match account? with
  | none => ⟨.error .accountNotConnected, 0, []⟩
  | some account =>
    let expiresAt := account.expires_at.getD 0
    if strTruthy account.access_token && decide (expiresAt > nowSeconds + 60) then
      ⟨.ok (strVal account.access_token), 0, []⟩
    else if !strTruthy account.refresh_token then
      ⟨.error .refreshTokenMissing, 0, []⟩
    else
      match refreshResponse with
      | .error details => ⟨.error (.tokenRefreshFailed details), 1, []⟩
      | .ok payload =>
        ⟨.ok payload.access_token, 1,
          [{ access_token := payload.access_token,
             expires_at := nowSeconds + payload.expires_in,
             refresh_token := jsNullish payload.refresh_token account.refresh_token,
             scope := jsNullish payload.scope account.scope,
             token_type := jsNullish payload.token_type account.token_type }]⟩

/-! ## Local store and the sync pass — `syncGoogleEventsToLocal` -/

/-- A Prisma `CalendarEvent` row (local ids modelled as naturals). -/
structure CalendarEvent where
  id : Nat
  userId : String
  title : String
  startAt : JsDate
  endAt : JsDate
  participants : List String
  location : Option String
  meetLink : Option String
  source : String
  externalId : Option String
  deriving DecidableEq, Repr

/-- The local event table plus the id sequence. -/
structure Store where
  events : List CalendarEvent
  nextId : Nat
  deriving DecidableEq, Repr

/-- The empty local store. -/
def Store.empty : Store := ⟨[], 0⟩

/-- Whether a row matches the `userId_externalId` upsert key. -/
def keyMatch (userId eid : String) (r : CalendarEvent) : Bool :=
  r.userId = userId && r.externalId = some eid

/-- The `prisma.calendarEvent.upsert` call of the sync pass: if a row with
key `(userId, event.id)` exists, overwrite its mutable fields in place
(Prisma skips an `undefined` field in `update`, hence `jsNullish` for
`location`); otherwise create a new row with that external id. -/
def syncUpsert (store : Store) (userId : String) (event : GoogleEvent)
    (start end_ : JsDate) (participants : List String) : Store :=
  let title := if strTruthy event.summary then strVal event.summary
               else "Untitled event"
  let link := getGoogleMeetOrLocationLink event
  if store.events.any (keyMatch userId event.id) then
    { store with events := store.events.map (fun r =>
        if keyMatch userId event.id r then
          { r with title := title, startAt := start, endAt := end_,
                   participants := participants,
                   location := jsNullish event.location r.location,
                   meetLink := link, source := "google" }
        else r) }
  else
    { events := store.events ++ [{
        id := store.nextId, userId := userId, title := title,
        startAt := start, endAt := end_, participants := participants,
        location := event.location, meetLink := link, source := "google",
        externalId := some event.id }],
      nextId := store.nextId + 1 }

/-- The participant projection of the sync pass:
`(event.attendees ?? []).map(e => e.email).filter(Boolean)`. -/
def attendeeEmails (event : GoogleEvent) : List String :=
  (event.attendees.getD []).filterMap (fun a =>
    match a.email with
    | some e => if e = "" then none else some e
    | none => none)

/-- One iteration of the `for` loop of `syncGoogleEventsToLocal`:
skip when the identity is missing or the status is `"cancelled"`, skip
when either time resolves to null, otherwise upsert and count. -/
def syncFold (userId : String) (acc : Nat × Store) (event : GoogleEvent) :
    Nat × Store :=
  if event.id = "" || event.status = some "cancelled" then acc
  else
    match parseDateTime event.start, parseDateTime event.end_ with
    | some start, some end_ =>
      (acc.1 + 1,
       syncUpsert acc.2 userId event start end_ (attendeeEmails event))
    | _, _ => acc

/-- The value returned by `syncGoogleEventsToLocal`.  Faithful to the
source: the function returns only `{ syncedCount }` — no
`totalFromGoogle`, `skippedCancelled` or `skippedInvalidTime` field exists
on the returned record. -/
structure SyncResult where
  syncedCount : Nat
  deriving DecidableEq, Repr

/-- `syncGoogleEventsToLocal` from src/lib/calendar.ts, applied to the
listing `googleEvents` (the network fetch made explicit) and to the
current local store. -/
def syncGoogleEventsToLocal (userId : String) (googleEvents : List GoogleEvent)
    (store : Store) : SyncResult × Store :=
  let r := googleEvents.foldl (syncFold userId) (0, store)
  ({ syncedCount := r.1 }, r.2)

/-! ## Event publisher — `POST /api/calendar/events` -/

/-- The shape of `body.participants` (`string[] | string | undefined`). -/
inductive ParticipantsInput where
  | arr (entries : List String)
  | str (raw : String)
  | missing
  deriving DecidableEq, Repr

/-- `parseParticipants` from src/app/api/calendar/events/route.ts:
a list is trimmed entrywise and empty entries dropped; a string is split
on commas, trimmed, and empty entries dropped; anything else gives `[]`. -/
def parseParticipants : ParticipantsInput → List String
  | .arr entries => (entries.map jsTrim).filter (fun s => s.length > 0)
  | .str raw => ((jsSplitComma raw).map jsTrim).filter (fun s => s.length > 0)
  | .missing => []

/-- The value returned by `createGoogleCalendarEvent` on success. -/
structure RemoteCreated where
  externalId : String
  meetLink : Option String
  deriving DecidableEq, Repr

/-- `createGoogleCalendarEvent`'s success value, built from the provider's
response event. -/
def remoteCreatedOfEvent (event : GoogleEvent) : RemoteCreated :=
  ⟨event.id, getGoogleMeetOrLocationLink event⟩

/-- The publish result surface: the created local row and the
`googleSyncError` warning (null on full remote success). -/
structure PublishOutcome where
  event : CalendarEvent
  googleSyncError : Option String
  deriving DecidableEq, Repr

/-- The post-validation body of `POST` in
src/app/api/calendar/events/route.ts (`createAndPublish` in the spec):
`title` is the validated, trimmed title; `remote` is the outcome of the
`createGoogleCalendarEvent` call (`.error message` when it threw).  The
local row is created unconditionally; the remote outcome only decides
`externalId`, `meetLink`, `source` and the reported warning. -/
def createAndPublish (userId : String) (title : String)
    (startAt endAt : JsDate) (participantsInput : ParticipantsInput)
    (location meetLink : Option String)
    (remote : Except String RemoteCreated) (store : Store) :
    PublishOutcome × Store :=
  let participants := parseParticipants participantsInput
  let baseMeet := truthyOrNone (meetLink.map jsTrim)
  let externalId : Option String :=
    match remote with
    | .ok g => some g.externalId
    | .error _ => none
  let syncedMeetLink : Option String :=
    match remote with
    | .ok g => if strTruthy g.meetLink then g.meetLink else baseMeet
    | .error _ => baseMeet
  let googleSyncError : Option String :=
    match remote with
    | .ok _ => none
    | .error msg => some msg
  let ev : CalendarEvent :=
    { id := store.nextId, userId := userId, title := title,
      startAt := startAt, endAt := endAt, participants := participants,
      location := truthyOrNone (location.map jsTrim),
      meetLink := syncedMeetLink,
      source := if strTruthy externalId then "app+google" else "app",
      externalId := externalId }
  (⟨ev, googleSyncError⟩,
   { events := store.events ++ [ev], nextId := store.nextId + 1 })

/-! ## Sample data (used to witness the universally quantified claims) -/

/-- A timed remote event. -/
def demoEvent1 : GoogleEvent :=
  { id := "e1",
    start := some { dateTime := some "2024-01-02T09:00:00Z" },
    end_ := some { dateTime := some "2024-01-02T09:30:00Z" } }

/-- An all-day remote event. -/
def demoEvent2 : GoogleEvent :=
  { id := "e2",
    start := some { date := some "2024-01-03" },
    end_ := some { date := some "2024-01-03" } }

/-- A two-event remote listing with distinct ids. -/
def demoListing : List GoogleEvent := [demoEvent1, demoEvent2]

/-- A local row as created by a successful publish (external id `e1`). -/
def demoPublishedRow : CalendarEvent :=
  { id := 5, userId := "u", title := "Old", startAt := ⟨"S0"⟩,
    endAt := ⟨"E0"⟩, participants := [], location := none,
    meetLink := none, source := "app+google", externalId := some "e1" }

/-- A store holding exactly the published row. -/
def demoPublishedStore : Store := ⟨[demoPublishedRow], 6⟩

/-- A remote item matching the published row's external id. -/
def demoMatchingEvent : GoogleEvent :=
  { id := "e1", summary := some "New",
    start := some { dateTime := some "S1" },
    end_ := some { dateTime := some "E1" } }

/-- The published row as the sync pass rewrites it. -/
def demoOverwrittenRow : CalendarEvent :=
  { id := 5, userId := "u", title := "New", startAt := ⟨"S1"⟩,
    endAt := ⟨"E1"⟩, participants := [], location := none,
    meetLink := none, source := "google", externalId := some "e1" }

/-! ## Store analysis (for the idempotence and overwrite claims) -/

/-- A remote item the sync pass fully absorbs: identity present, not
cancelled, and both times resolving to non-null instants. -/
def goodEvent (e : GoogleEvent) : Prop :=
  e.id ≠ "" ∧ e.status ≠ some "cancelled" ∧
  (parseDateTime e.start).isSome = true ∧ (parseDateTime e.end_).isSome = true

instance : DecidablePred goodEvent := fun _ =>
  inferInstanceAs (Decidable (_ ∧ _ ∧ _ ∧ _))

/-- The reconciliation key of a local row. -/
def keyOf (r : CalendarEvent) : String × Option String :=
  (r.userId, r.externalId)

/-- The list of reconciliation keys of a store, in row order. -/
def storeKeys (s : Store) : List (String × Option String) :=
  s.events.map keyOf

/-- A row with key `(u, eid)` exists in the store. -/
def hasKey (s : Store) (u eid : String) : Prop :=
  (u, some eid) ∈ storeKeys s

instance : ∀ s u eid, Decidable (hasKey s u eid) := fun s _ _ =>
  inferInstanceAs (Decidable (_ ∈ storeKeys s))

/-- Number of rows belonging to a user. -/
def userCount (s : Store) (u : String) : Nat :=
  (s.events.filter (fun r => r.userId = u)).length

/-- Every row with key `(u, eid)` carries the remote-sourced tag. -/
def sourceGoogleAt (s : Store) (u eid : String) : Prop :=
  ∀ r ∈ s.events, r.userId = u → r.externalId = some eid →
    r.source = "google"

/-! ## Auxiliary lemmas -/

/-- A string has positive length exactly when it is not the empty string. -/
theorem strLengthPos (s : String) : 0 < s.length ↔ s ≠ "" := by
  cases s with
  | mk l =>
    cases l with
    | nil => simp [String.length]
    | cons c t =>
      simp only [String.length]
      constructor
      · intro _ h
        exact absurd (congrArg String.data h) (by simp)
      · intro _
        simp

/-- `keyMatch` succeeds exactly on rows carrying the key. -/
theorem keyMatch_eq_true_iff (u eid : String) (r : CalendarEvent) :
    keyMatch u eid r = true ↔ r.userId = u ∧ r.externalId = some eid := by
  simp [keyMatch]

/-- `hasKey` coincides with the `any`-test the upsert performs. -/
theorem hasKey_iff_any (s : Store) (u eid : String) :
    hasKey s u eid ↔ s.events.any (keyMatch u eid) = true := by
  simp only [hasKey, storeKeys, List.mem_map, List.any_eq_true,
    keyMatch_eq_true_iff, keyOf, Prod.mk.injEq]

/-- An upsert hitting an existing key leaves the key list unchanged
(the update branch rewrites fields in place). -/
theorem syncUpsert_storeKeys_of_hasKey {s : Store} {u : String}
    {ev : GoogleEvent} {st en : JsDate} {ps : List String}
    (h : hasKey s u ev.id) :
    storeKeys (syncUpsert s u ev st en ps) = storeKeys s := by
  simp only [syncUpsert]
  rw [if_pos ((hasKey_iff_any s u ev.id).mp h)]
  simp only [storeKeys, List.map_map]
  refine List.map_congr_left (fun r _ => ?_)
  by_cases hk : keyMatch u ev.id r = true <;> simp [hk, keyOf]

/-- An upsert missing the key appends exactly one row with that key. -/
theorem syncUpsert_storeKeys_of_not_hasKey {s : Store} {u : String}
    {ev : GoogleEvent} {st en : JsDate} {ps : List String}
    (h : ¬ hasKey s u ev.id) :
    storeKeys (syncUpsert s u ev st en ps) =
      storeKeys s ++ [(u, some ev.id)] := by
  simp only [syncUpsert]
  rw [if_neg (fun hc => h ((hasKey_iff_any s u ev.id).mpr hc))]
  simp [storeKeys, keyOf]

/-- Key presence after an upsert: the old keys plus the upserted one. -/
theorem hasKey_syncUpsert_iff {s : Store} {u : String} {ev : GoogleEvent}
    {st en : JsDate} {ps : List String} (u' eid' : String) :
    hasKey (syncUpsert s u ev st en ps) u' eid' ↔
      hasKey s u' eid' ∨ (u' = u ∧ eid' = ev.id) := by
  by_cases h : hasKey s u ev.id
  · rw [hasKey, syncUpsert_storeKeys_of_hasKey h]
    constructor
    · exact fun hm => Or.inl hm
    · rintro (hm | ⟨rfl, rfl⟩)
      · exact hm
      · exact h
  · rw [hasKey, syncUpsert_storeKeys_of_not_hasKey h]
    simp [hasKey, Prod.ext_iff]

/-- A good event is absorbed: the counter steps by one and the store is
the corresponding upsert. -/
theorem syncFold_good (u : String) (acc : Nat × Store) {e : GoogleEvent}
    (hg : goodEvent e) :
    ∃ st en, parseDateTime e.start = some st ∧
      parseDateTime e.end_ = some en ∧
      syncFold u acc e =
        (acc.1 + 1, syncUpsert acc.2 u e st en (attendeeEmails e)) := by
  obtain ⟨h1, h2, h3, h4⟩ := hg
  obtain ⟨st, hst⟩ := Option.isSome_iff_exists.mp h3
  obtain ⟨en, hen⟩ := Option.isSome_iff_exists.mp h4
  exact ⟨st, en, hst, hen, by simp [syncFold, h1, h2, hst, hen]⟩

/-- Each loop iteration either leaves the store alone or performs the
upsert of a good event. -/
theorem syncFold_store_cases (u : String) (acc : Nat × Store)
    (e : GoogleEvent) :
    (syncFold u acc e).2 = acc.2 ∨
    (goodEvent e ∧ ∃ st en,
      (syncFold u acc e).2 = syncUpsert acc.2 u e st en (attendeeEmails e)) := by
  by_cases hg : goodEvent e
  · obtain ⟨st, en, _, _, heq⟩ := syncFold_good u acc hg
    exact Or.inr ⟨hg, st, en, by rw [heq]⟩
  · left
    by_cases h1 : e.id = ""
    · simp [syncFold, h1]
    · by_cases h2 : e.status = some "cancelled"
      · simp [syncFold, h2]
      · rcases hs : parseDateTime e.start with _ | st
        · simp [syncFold, h1, h2, hs]
        · rcases he : parseDateTime e.end_ with _ | en
          · simp [syncFold, h1, h2, hs, he]
          · exact absurd ⟨h1, h2, by simp [hs], by simp [he]⟩ hg

/-- Key presence survives any loop iteration. -/
theorem hasKey_syncFold_mono {u : String} {acc : Nat × Store}
    {e : GoogleEvent} (u' eid' : String) (h : hasKey acc.2 u' eid') :
    hasKey (syncFold u acc e).2 u' eid' := by
  rcases syncFold_store_cases u acc e with hc | ⟨_, st, en, hc⟩
  · rw [hc]; exact h
  · rw [hc]; exact (hasKey_syncUpsert_iff u' eid').mpr (Or.inl h)

/-- A pass over a listing of good events increments the counter by the
listing length, whatever the store. -/
theorem foldl_syncFold_count (u : String) :
    ∀ (es : List GoogleEvent) (acc : Nat × Store),
      (∀ e ∈ es, goodEvent e) →
      (es.foldl (syncFold u) acc).1 = acc.1 + es.length := by
  intro es
  induction es with
  | nil => intro acc _; simp
  | cons e t ih =>
    intro acc hg
    rw [List.foldl_cons,
      ih (syncFold u acc e) (fun e' he' => hg e' (List.mem_cons_of_mem _ he'))]
    obtain ⟨st, en, _, _, heq⟩ :=
      syncFold_good u acc (hg e (List.mem_cons_self e t))
    rw [heq]
    simp [Nat.add_assoc, Nat.add_comm 1]

/-- A pass in which every absorbed event's key is already present leaves
the key list untouched (every upsert takes its update branch). -/
theorem foldl_syncFold_keys_of_hasKey (u : String) :
    ∀ (es : List GoogleEvent) (acc : Nat × Store),
      (∀ e ∈ es, goodEvent e → hasKey acc.2 u e.id) →
      storeKeys (es.foldl (syncFold u) acc).2 = storeKeys acc.2 := by
  intro es
  induction es with
  | nil => intro acc _; rfl
  | cons e t ih =>
    intro acc h
    have hstep : storeKeys (syncFold u acc e).2 = storeKeys acc.2 := by
      rcases syncFold_store_cases u acc e with hc | ⟨hgood, st, en, hc⟩
      · rw [hc]
      · rw [hc]
        exact syncUpsert_storeKeys_of_hasKey (h e (List.mem_cons_self e t) hgood)
    rw [List.foldl_cons, ih (syncFold u acc e) ?_, hstep]
    intro e' he' hg'
    show (u, some e'.id) ∈ storeKeys (syncFold u acc e).2
    rw [hstep]
    exact h e' (List.mem_cons_of_mem _ he') hg'

/-- A pass over good events with pairwise-distinct, all-fresh ids appends
exactly one key per event, in listing order. -/
theorem foldl_syncFold_keys_fresh (u : String) :
    ∀ (es : List GoogleEvent) (acc : Nat × Store),
      (∀ e ∈ es, goodEvent e) →
      (es.map GoogleEvent.id).Nodup →
      (∀ e ∈ es, ¬ hasKey acc.2 u e.id) →
      storeKeys (es.foldl (syncFold u) acc).2 =
        storeKeys acc.2 ++ es.map (fun e => (u, some e.id)) := by
  intro es
  induction es with
  | nil => intro acc _ _ _; simp
  | cons e t ih =>
    intro acc hg hnd hfresh
    obtain ⟨st, en, _, _, heq⟩ :=
      syncFold_good u acc (hg e (List.mem_cons_self e t))
    have hne : ¬ hasKey acc.2 u e.id := hfresh e (List.mem_cons_self e t)
    have hkeys1 : storeKeys (syncFold u acc e).2 =
        storeKeys acc.2 ++ [(u, some e.id)] := by
      rw [heq]
      exact syncUpsert_storeKeys_of_not_hasKey hne
    have hndt : (∀ x ∈ t, ¬ x.id = e.id) ∧
        (t.map GoogleEvent.id).Nodup := by simpa using hnd
    rw [List.foldl_cons, ih (syncFold u acc e)
        (fun e' he' => hg e' (List.mem_cons_of_mem _ he'))
        hndt.2 ?_, hkeys1]
    · simp
    · intro e' he'
      show ¬ (u, some e'.id) ∈ storeKeys (syncFold u acc e).2
      rw [hkeys1]
      intro hc
      rcases List.mem_append.mp hc with hmem | hmem
      · exact hfresh e' (List.mem_cons_of_mem _ he') hmem
      · have h2 := List.mem_singleton.mp hmem
        exact hndt.1 e' he'
          (Option.some.inj (Prod.ext_iff.mp h2).2)

/-- Counting a user's rows equals counting that user's keys. -/
theorem filter_userId_length (l : List CalendarEvent) (u : String) :
    (l.filter (fun r => r.userId = u)).length =
      ((l.map keyOf).filter (fun k => k.1 = u)).length := by
  induction l with
  | nil => rfl
  | cons r t ih =>
    by_cases h : r.userId = u <;> simp [keyOf, h, ih, List.filter_cons]

/-- `userCount` through the key list. -/
theorem userCount_eq_keys (s : Store) (u : String) :
    userCount s u = ((storeKeys s).filter (fun k => k.1 = u)).length :=
  filter_userId_length s.events u

/-- The upsert of the sync pass stamps `source = "google"` on every row
carrying the upserted key, in both its update and its create branch. -/
theorem sourceGoogleAt_syncUpsert_self (s : Store) (u : String)
    (e : GoogleEvent) (st en : JsDate) (ps : List String) :
    sourceGoogleAt (syncUpsert s u e st en ps) u e.id := by
  intro r hr hru hre
  simp only [syncUpsert] at hr
  split at hr
  · obtain ⟨r0, hr0, rfl⟩ := List.mem_map.mp hr
    by_cases hk : keyMatch u e.id r0 = true
    · rw [if_pos hk]
    · rw [if_neg hk] at hru hre ⊢
      exact absurd ((keyMatch_eq_true_iff u e.id r0).mpr ⟨hru, hre⟩) hk
  · rename_i hno
    rcases List.mem_append.mp hr with hmem | hmem
    · have : s.events.any (keyMatch u e.id) = true :=
        List.any_eq_true.mpr
          ⟨r, hmem, (keyMatch_eq_true_iff u e.id r).mpr ⟨hru, hre⟩⟩
      exact absurd this hno
    · rw [List.mem_singleton.mp hmem]

/-- Any sync upsert preserves the "all rows at this key are
google-sourced" property (it only ever writes `source = "google"`). -/
theorem sourceGoogleAt_syncUpsert_preserved {s : Store} {u eid : String}
    (h : sourceGoogleAt s u eid) (u' : String) (e : GoogleEvent)
    (st en : JsDate) (ps : List String) :
    sourceGoogleAt (syncUpsert s u' e st en ps) u eid := by
  intro r hr hru hre
  simp only [syncUpsert] at hr
  split at hr
  · obtain ⟨r0, hr0, rfl⟩ := List.mem_map.mp hr
    by_cases hk : keyMatch u' e.id r0 = true
    · rw [if_pos hk]
    · rw [if_neg hk] at hru hre ⊢
      exact h r0 hr0 hru hre
  · rcases List.mem_append.mp hr with hmem | hmem
    · exact h r hmem hru hre
    · rw [List.mem_singleton.mp hmem]

/-- A whole remaining pass preserves the google-sourced property. -/
theorem sourceGoogleAt_foldl_preserved (u' u eid : String) :
    ∀ (es : List GoogleEvent) (acc : Nat × Store),
      sourceGoogleAt acc.2 u eid →
      sourceGoogleAt (es.foldl (syncFold u') acc).2 u eid := by
  intro es
  induction es with
  | nil => intro acc h; exact h
  | cons e t ih =>
    intro acc h
    rw [List.foldl_cons]
    refine ih (syncFold u' acc e) ?_
    rcases syncFold_store_cases u' acc e with hc | ⟨_, st, en, hc⟩
    · rw [hc]; exact h
    · rw [hc]; exact sourceGoogleAt_syncUpsert_preserved h u' e st en _

/-- After a pass containing a good event, every row at that event's key is
google-sourced. -/
theorem sourceGoogleAt_foldl_of_mem (u : String) :
    ∀ (es : List GoogleEvent) (acc : Nat × Store) (e : GoogleEvent),
      e ∈ es → goodEvent e →
      sourceGoogleAt (es.foldl (syncFold u) acc).2 u e.id := by
  intro es
  induction es with
  | nil => intro acc e he _; exact absurd he (List.not_mem_nil e)
  | cons e' t ih =>
    intro acc e he hg
    rw [List.foldl_cons]
    rcases List.mem_cons.mp he with rfl | hmem
    · refine sourceGoogleAt_foldl_preserved u u e.id t (syncFold u acc e) ?_
      obtain ⟨st, en, _, _, heq⟩ := syncFold_good u acc hg
      rw [heq]
      exact sourceGoogleAt_syncUpsert_self acc.2 u e st en _
    · exact ih (syncFold u acc e') e hmem hg

/-- The synced counter of a pass over good events is the listing length. -/
theorem sync_syncedCount (u : String) (es : List GoogleEvent) (store : Store)
    (hg : ∀ e ∈ es, goodEvent e) :
    (syncGoogleEventsToLocal u es store).1.syncedCount = es.length := by
  simp only [syncGoogleEventsToLocal]
  rw [foldl_syncFold_count u es (0, store) hg]
  simp

/-- Key list after a first pass into a store fresh for those keys. -/
theorem sync_storeKeys_fresh (u : String) (es : List GoogleEvent)
    (store : Store) (hg : ∀ e ∈ es, goodEvent e)
    (hnd : (es.map GoogleEvent.id).Nodup)
    (hfresh : ∀ e ∈ es, ¬ hasKey store u e.id) :
    storeKeys (syncGoogleEventsToLocal u es store).2 =
      storeKeys store ++ es.map (fun e => (u, some e.id)) := by
  simp only [syncGoogleEventsToLocal]
  exact foldl_syncFold_keys_fresh u es (0, store) hg hnd hfresh

/-- Key list after a pass whose absorbed keys are all already present. -/
theorem sync_storeKeys_of_hasKey (u : String) (es : List GoogleEvent)
    (store : Store)
    (h : ∀ e ∈ es, goodEvent e → hasKey store u e.id) :
    storeKeys (syncGoogleEventsToLocal u es store).2 = storeKeys store := by
  simp only [syncGoogleEventsToLocal]
  exact foldl_syncFold_keys_of_hasKey u es (0, store) h

/-! ## Claim theorems -/

/-- C9: `resolveInstant` (`parseDateTime`) returns the precise timestamp
when one is present; a date-only value is interpreted as UTC midnight
(the date with `T00:00:00.000Z` appended); when both fields are absent
(or the whole spec is absent) it returns null, never synthesizing a
default instant. -/
theorem C9_parseDateTime_resolution :
    parseDateTime none = none ∧
    ∀ g : GoogleEventDateTime,
      (strTruthy g.dateTime = true →
        parseDateTime (some g) = some ⟨strVal g.dateTime⟩) ∧
      (strTruthy g.dateTime = false → strTruthy g.date = true →
        parseDateTime (some g) = some ⟨strVal g.date ++ "T00:00:00.000Z"⟩) ∧
      (strTruthy g.dateTime = false → strTruthy g.date = false →
        parseDateTime (some g) = none) := by
  refine ⟨rfl, fun g => ⟨fun h1 => ?_, fun h1 h2 => ?_, fun h1 h2 => ?_⟩⟩ <;>
    simp [parseDateTime, h1]
  · simp [h2]
  · simp [h2]

/-- Witness for C9 at concrete inputs: a timed spec, a date-only spec and
an empty spec. -/
theorem C9_parseDateTime_resolution_witness :
    parseDateTime (some { dateTime := some "2024-01-02T09:00:00Z" }) =
      some ⟨"2024-01-02T09:00:00Z"⟩ ∧
    parseDateTime (some { date := some "2024-01-03" }) =
      some ⟨"2024-01-03T00:00:00.000Z"⟩ ∧
    parseDateTime (some {}) = none :=
  ⟨(C9_parseDateTime_resolution.2 _).1 (by decide),
   (C9_parseDateTime_resolution.2 _).2.1 (by decide) (by decide),
   (C9_parseDateTime_resolution.2 _).2.2 (by decide) (by decide)⟩

/-- C8: `resolveMeetingLink` (`getGoogleMeetOrLocationLink`) precedence:
a present (truthy) `hangoutLink` wins; otherwise a present location that
passes the `http(s)://` test; otherwise the generic `htmlLink` (null when
that too is absent).  In particular a dedicated meeting link beats an
`http://` location. -/
theorem C8_meetLink_precedence :
    ∀ ev : GoogleEvent,
      (strTruthy ev.hangoutLink = true →
        getGoogleMeetOrLocationLink ev = ev.hangoutLink) ∧
      (strTruthy ev.hangoutLink = false → strTruthy ev.location = true →
        isHttpUrl (strVal ev.location) = true →
        getGoogleMeetOrLocationLink ev = ev.location) ∧
      (strTruthy ev.hangoutLink = false →
        (strTruthy ev.location && isHttpUrl (strVal ev.location)) = false →
        getGoogleMeetOrLocationLink ev = ev.htmlLink) ∧
      (strTruthy ev.hangoutLink = true → strTruthy ev.location = true →
        isHttpUrl (strVal ev.location) = true →
        getGoogleMeetOrLocationLink ev = ev.hangoutLink) := by
  intro ev
  refine ⟨fun h1 => ?_, fun h1 h2 h3 => ?_, fun h1 h2 => ?_, fun h1 _ _ => ?_⟩
  · simp [getGoogleMeetOrLocationLink, h1]
  · simp [getGoogleMeetOrLocationLink, h1, h2, h3]
  · simp [getGoogleMeetOrLocationLink, h1, h2]
  · simp [getGoogleMeetOrLocationLink, h1]

/-- Witness for C8: an event carrying both a dedicated meeting link and an
`http://` location resolves to the dedicated link. -/
theorem C8_meetLink_precedence_witness :
    getGoogleMeetOrLocationLink
      { id := "e", hangoutLink := some "https://meet.google.com/abc",
        location := some "http://example.com/room",
        htmlLink := some "https://calendar.google.com/event" } =
      some "https://meet.google.com/abc" :=
  (C8_meetLink_precedence _).2.2.2 (by decide) (by decide) (by decide)

/-- C7 counterexample: `parseParticipants` does not deduplicate — the
comma-separated input `"a@x.com, a@x.com"` yields the same email twice,
refuting "no email appears twice in the result". -/
theorem C7_parseParticipants_duplicate :
    parseParticipants (.str "a@x.com, a@x.com") = ["a@x.com", "a@x.com"] ∧
    ¬ (parseParticipants (.str "a@x.com, a@x.com")).Nodup := by
  exact ⟨by decide, by decide⟩

/-- C7 amended: `parseParticipants` normalizes a comma-separated string or
a list into a sequence of non-empty, whitespace-trimmed entries (an entry
is in the result exactly when it is the non-empty trim of an input entry),
but it does not deduplicate. -/
theorem C7_parseParticipants_trim_filter :
    (∀ (xs : List String) (s : String),
      s ∈ parseParticipants (.arr xs) ↔ s ≠ "" ∧ ∃ x ∈ xs, jsTrim x = s) ∧
    (∀ (raw s : String),
      s ∈ parseParticipants (.str raw) ↔
        s ≠ "" ∧ ∃ x ∈ jsSplitComma raw, jsTrim x = s) ∧
    parseParticipants .missing = [] := by
  refine ⟨fun xs s => ?_, fun raw s => ?_, rfl⟩ <;>
    simp [parseParticipants, List.mem_filter, strLengthPos, and_comm]

/-- Witness for C7 amended, at a concrete messy input. -/
theorem C7_parseParticipants_trim_filter_witness :
    "a@x.com" ∈ parseParticipants (.str " a@x.com ,, b@x.com") ↔
      "a@x.com" ≠ "" ∧
      ∃ x ∈ jsSplitComma " a@x.com ,, b@x.com", jsTrim x = "a@x.com" :=
  C7_parseParticipants_trim_filter.2.1 " a@x.com ,, b@x.com" "a@x.com"

/-- C4: a credential record with a present (truthy) access token and
`expiresAt > now + 60` makes `getGoogleAccessTokenForUser` return the
cached token with zero token-endpoint calls and zero store writes —
whatever the token endpoint would have answered. -/
theorem C4_cached_token_no_refresh :
    ∀ (account : Account) (now e : Int) (resp : Except String TokenResponse),
      account.expires_at = some e →
      strTruthy account.access_token = true →
      e > now + 60 →
      getGoogleAccessTokenForUser (some account) now resp =
        ⟨.ok (strVal account.access_token), 0, []⟩ := by
  intro account now e resp he ht hgt
  simp [getGoogleAccessTokenForUser, he, ht, hgt]

/-- Witness for C4 at a concrete fresh credential record. -/
theorem C4_cached_token_no_refresh_witness :
    getGoogleAccessTokenForUser
      (some { id := "a1", userId := "u", provider := "google",
              access_token := some "tok", refresh_token := some "ref",
              expires_at := some 1000 })
      100 (.error "endpoint down") =
      ⟨.ok "tok", 0, []⟩ :=
  C4_cached_token_no_refresh _ 100 1000 _ rfl (by decide) (by decide)

/-- C5: with a stale token (`expiresAt ≤ now + 60`, absent read as 0) and a
present refresh token, a successful refresh makes exactly one
token-endpoint call and exactly one store write; that write sets
`access_token` to the provider's token, `expires_at` to
`now + expires_in`, and overwrites the stored refresh token exactly when
the provider's response includes one, preserving it otherwise. -/
theorem C5_refresh_single_write :
    ∀ (account : Account) (now : Int) (payload : TokenResponse),
      account.expires_at.getD 0 ≤ now + 60 →
      strTruthy account.refresh_token = true →
      ∃ u : AccountUpdate,
        (getGoogleAccessTokenForUser (some account) now (.ok payload)).writes
          = [u] ∧
        (getGoogleAccessTokenForUser (some account) now
            (.ok payload)).refreshCalls = 1 ∧
        (getGoogleAccessTokenForUser (some account) now (.ok payload)).result
          = .ok payload.access_token ∧
        u.access_token = payload.access_token ∧
        u.expires_at = now + payload.expires_in ∧
        (∀ r, payload.refresh_token = some r → u.refresh_token = some r) ∧
        (payload.refresh_token = none →
          u.refresh_token = account.refresh_token) := by
  intro account now payload hstale ht
  have hlt : ¬ (account.expires_at.getD 0 > now + 60) := by omega
  refine ⟨{ access_token := payload.access_token,
            expires_at := now + payload.expires_in,
            refresh_token := jsNullish payload.refresh_token
              account.refresh_token,
            scope := jsNullish payload.scope account.scope,
            token_type := jsNullish payload.token_type account.token_type },
          ?_, ?_, ?_, rfl, rfl, ?_, ?_⟩
  · simp [getGoogleAccessTokenForUser, hlt, ht]
  · simp [getGoogleAccessTokenForUser, hlt, ht]
  · simp [getGoogleAccessTokenForUser, hlt, ht]
  · intro r hr
    simp [hr, jsNullish]
  · intro hr
    simp [hr, jsNullish]

/-- Witness for C5: a concrete stale record refreshed by a response that
omits the refresh token; the single write keeps the prior refresh token. -/
theorem C5_refresh_single_write_witness :
    ∃ u : AccountUpdate,
      (getGoogleAccessTokenForUser
        (some { id := "a1", userId := "u", provider := "google",
                access_token := some "old", refresh_token := some "ref",
                expires_at := some 50 })
        100 (.ok { access_token := "new", expires_in := 3600 })).writes
        = [u] ∧
      (getGoogleAccessTokenForUser
        (some { id := "a1", userId := "u", provider := "google",
                access_token := some "old", refresh_token := some "ref",
                expires_at := some 50 })
        100 (.ok { access_token := "new", expires_in := 3600 })).refreshCalls
        = 1 ∧
      (getGoogleAccessTokenForUser
        (some { id := "a1", userId := "u", provider := "google",
                access_token := some "old", refresh_token := some "ref",
                expires_at := some 50 })
        100 (.ok { access_token := "new", expires_in := 3600 })).result
        = .ok "new" ∧
      u.access_token = "new" ∧
      u.expires_at = 100 + 3600 ∧
      (∀ r, (none : Option String) = some r → u.refresh_token = some r) ∧
      ((none : Option String) = none → u.refresh_token = some "ref") :=
  C5_refresh_single_write
    { id := "a1", userId := "u", provider := "google",
      access_token := some "old", refresh_token := some "ref",
      expires_at := some 50 }
    100 { access_token := "new", expires_in := 3600 } (by decide) (by decide)

/-- C6: a stale record (`expiresAt ≤ now + 60`) with no refresh token makes
`getGoogleAccessTokenForUser` fail with the refresh-token-missing error,
with zero token-endpoint calls and zero store writes. -/
theorem C6_refresh_token_missing :
    ∀ (account : Account) (now : Int) (resp : Except String TokenResponse),
      account.expires_at.getD 0 ≤ now + 60 →
      account.refresh_token = none →
      getGoogleAccessTokenForUser (some account) now resp =
        ⟨.error .refreshTokenMissing, 0, []⟩ := by
  intro account now resp hstale hr
  have hlt : ¬ (account.expires_at.getD 0 > now + 60) := by omega
  simp [getGoogleAccessTokenForUser, hlt, hr, strTruthy]

/-- Witness for C6 at a concrete expired record without refresh token. -/
theorem C6_refresh_token_missing_witness :
    getGoogleAccessTokenForUser
      (some { id := "a1", userId := "u", provider := "google",
              access_token := some "old", expires_at := some 50 })
      100 (.ok { access_token := "new", expires_in := 3600 }) =
      ⟨.error .refreshTokenMissing, 0, []⟩ :=
  C6_refresh_token_missing _ 100 _ (by decide) rfl

/-- C1 (code bug): `syncGoogleEventsToLocal`'s entire return value is the
single-field record `{ syncedCount }` — evaluated here on a listing with
one cancelled item and one valid item, where the spec promises
`{synced := 1, totalFromGoogle := 2, skippedCancelled := 1,
skippedInvalidTime := 0}`, the function returns only `syncedCount = 1`
and no other counter exists on `SyncResult`; the sync route nevertheless
reads `result.totalFromGoogle`, `result.skippedCancelled` and
`result.skippedInvalidTime`. -/
theorem C1_sync_returns_only_syncedCount :
    syncGoogleEventsToLocal "u"
      [{ id := "evt1", status := some "cancelled" },
       { id := "evt2",
         start := some { dateTime := some "2024-01-02T09:00:00Z" },
         end_ := some { dateTime := some "2024-01-02T09:30:00Z" } }]
      Store.empty =
      ({ syncedCount := 1 },
       ⟨[{ id := 0, userId := "u", title := "Untitled event",
           startAt := ⟨"2024-01-02T09:00:00Z"⟩,
           endAt := ⟨"2024-01-02T09:30:00Z"⟩,
           participants := [], location := none, meetLink := none,
           source := "google", externalId := some "evt2" }], 1⟩) := by
  decide

/-- C2: `createAndPublish` never propagates a remote-create failure — on
failure it still creates and returns the local row with `source = "app"`,
`externalId = null` and the failure message as `googleSyncError`; on a
remote success carrying a (non-empty) assigned id the row gets
`source = "app+google"`, that external id, and a null `googleSyncError`.
In both cases exactly the returned row is appended to the store. -/
theorem C2_publish_local_first :
    ∀ (u title : String) (s e : JsDate) (pin : ParticipantsInput)
      (loc ml : Option String) (store : Store),
      (∀ msg : String,
        (createAndPublish u title s e pin loc ml (.error msg)
          store).1.event.source = "app" ∧
        (createAndPublish u title s e pin loc ml (.error msg)
          store).1.event.externalId = none ∧
        (createAndPublish u title s e pin loc ml (.error msg)
          store).1.googleSyncError = some msg ∧
        (createAndPublish u title s e pin loc ml (.error msg)
          store).2.events =
          store.events ++
            [(createAndPublish u title s e pin loc ml (.error msg)
              store).1.event]) ∧
      (∀ g : RemoteCreated, g.externalId ≠ "" →
        (createAndPublish u title s e pin loc ml (.ok g)
          store).1.event.source = "app+google" ∧
        (createAndPublish u title s e pin loc ml (.ok g)
          store).1.event.externalId = some g.externalId ∧
        (createAndPublish u title s e pin loc ml (.ok g)
          store).1.googleSyncError = none ∧
        (createAndPublish u title s e pin loc ml (.ok g)
          store).2.events =
          store.events ++
            [(createAndPublish u title s e pin loc ml (.ok g)
              store).1.event]) := by
  intro u title s e pin loc ml store
  constructor
  · intro msg
    refine ⟨?_, ?_, ?_, ?_⟩ <;> simp [createAndPublish, strTruthy]
  · intro g hg
    refine ⟨?_, ?_, ?_, ?_⟩ <;> simp [createAndPublish, strTruthy, hg]

/-- Witness for C2: the spec's example draft, once against a failing
remote create and once against a success assigning `evt_1`. -/
theorem C2_publish_local_first_witness :
    (createAndPublish "u" "Standup" ⟨"2024-01-02T09:00:00Z"⟩
        ⟨"2024-01-02T09:30:00Z"⟩ (.str "a@x.com, b@x.com") none none
        (.error "remote down") Store.empty).1.event.source = "app" ∧
    (createAndPublish "u" "Standup" ⟨"2024-01-02T09:00:00Z"⟩
        ⟨"2024-01-02T09:30:00Z"⟩ (.str "a@x.com, b@x.com") none none
        (.error "remote down") Store.empty).1.event.externalId = none ∧
    (createAndPublish "u" "Standup" ⟨"2024-01-02T09:00:00Z"⟩
        ⟨"2024-01-02T09:30:00Z"⟩ (.str "a@x.com, b@x.com") none none
        (.error "remote down") Store.empty).1.googleSyncError =
      some "remote down" ∧
    (createAndPublish "u" "Standup" ⟨"2024-01-02T09:00:00Z"⟩
        ⟨"2024-01-02T09:30:00Z"⟩ (.str "a@x.com, b@x.com") none none
        (.ok ⟨"evt_1", none⟩) Store.empty).1.event.source = "app+google" ∧
    (createAndPublish "u" "Standup" ⟨"2024-01-02T09:00:00Z"⟩
        ⟨"2024-01-02T09:30:00Z"⟩ (.str "a@x.com, b@x.com") none none
        (.ok ⟨"evt_1", none⟩) Store.empty).1.event.externalId =
      some "evt_1" ∧
    (createAndPublish "u" "Standup" ⟨"2024-01-02T09:00:00Z"⟩
        ⟨"2024-01-02T09:30:00Z"⟩ (.str "a@x.com, b@x.com") none none
        (.ok ⟨"evt_1", none⟩) Store.empty).1.googleSyncError = none :=
  let base := C2_publish_local_first "u" "Standup" ⟨"2024-01-02T09:00:00Z"⟩
    ⟨"2024-01-02T09:30:00Z"⟩ (.str "a@x.com, b@x.com") none none Store.empty
  ⟨(base.1 "remote down").1, (base.1 "remote down").2.1,
   (base.1 "remote down").2.2.1,
   (base.2 ⟨"evt_1", none⟩ (by decide)).1,
   (base.2 ⟨"evt_1", none⟩ (by decide)).2.1,
   (base.2 ⟨"evt_1", none⟩ (by decide)).2.2.1⟩

/-- C3: running the sync pass twice against the same unchanged listing of
N non-cancelled, validly-timed events (with distinct remote ids) starting
from a store holding no rows for the user is idempotent: both passes
report `syncedCount = N`, afterwards the store holds exactly N rows for
that user, and the second pass creates no row at all. -/
theorem C3_sync_idempotent :
    ∀ (u : String) (es : List GoogleEvent) (store : Store),
      (∀ e ∈ es, goodEvent e) →
      (es.map GoogleEvent.id).Nodup →
      (∀ r ∈ store.events, r.userId ≠ u) →
      (syncGoogleEventsToLocal u es store).1.syncedCount = es.length ∧
      (syncGoogleEventsToLocal u es
          (syncGoogleEventsToLocal u es store).2).1.syncedCount = es.length ∧
      userCount (syncGoogleEventsToLocal u es
          (syncGoogleEventsToLocal u es store).2).2 u = es.length ∧
      (syncGoogleEventsToLocal u es
          (syncGoogleEventsToLocal u es store).2).2.events.length =
        (syncGoogleEventsToLocal u es store).2.events.length := by
  intro u es store hg hnd hclean
  have hfresh : ∀ e ∈ es, ¬ hasKey store u e.id := by
    intro e _ hk
    simp only [hasKey, storeKeys] at hk
    obtain ⟨r, hr, hkey⟩ := List.mem_map.mp hk
    exact hclean r hr (congrArg Prod.fst hkey)
  have keys1 : storeKeys (syncGoogleEventsToLocal u es store).2 =
      storeKeys store ++ es.map (fun e => (u, some e.id)) :=
    sync_storeKeys_fresh u es store hg hnd hfresh
  have hpresent : ∀ e ∈ es, goodEvent e →
      hasKey (syncGoogleEventsToLocal u es store).2 u e.id := by
    intro e he _
    show (u, some e.id) ∈ storeKeys (syncGoogleEventsToLocal u es store).2
    rw [keys1]
    exact List.mem_append.mpr (Or.inr (List.mem_map.mpr ⟨e, he, rfl⟩))
  have keys2 : storeKeys (syncGoogleEventsToLocal u es
        (syncGoogleEventsToLocal u es store).2).2 =
      storeKeys (syncGoogleEventsToLocal u es store).2 :=
    sync_storeKeys_of_hasKey u es _ hpresent
  refine ⟨sync_syncedCount u es store hg, sync_syncedCount u es _ hg, ?_, ?_⟩
  · rw [userCount_eq_keys, keys2, keys1, List.filter_append,
      List.length_append]
    have h0 : (storeKeys store).filter (fun k => k.1 = u) = [] := by
      rw [List.filter_eq_nil_iff]
      intro k hk
      simp only [storeKeys] at hk
      obtain ⟨r, hr, hkey⟩ := List.mem_map.mp hk
      simp only [decide_eq_true_eq]
      intro hku
      rw [← hkey] at hku
      exact hclean r hr hku
    have h1 : (es.map (fun e => (u, some e.id))).filter
        (fun k => k.1 = u) = es.map (fun e => (u, some e.id)) := by
      rw [List.filter_eq_self]
      intro k hk
      obtain ⟨e, _, hkey⟩ := List.mem_map.mp hk
      simp [← hkey]
    rw [h0, h1]
    simp
  · have hlen : ∀ s : Store, s.events.length = (storeKeys s).length :=
      fun s => (List.length_map s.events keyOf).symm
    rw [hlen, hlen, keys2]

/-- Witness for C3: the two-event listing `demoListing` synced twice into
an empty store. -/
theorem C3_sync_idempotent_witness :
    (∀ e ∈ demoListing, goodEvent e) ∧
    (demoListing.map GoogleEvent.id).Nodup ∧
    (∀ r ∈ Store.empty.events, r.userId ≠ "u") ∧
    ((syncGoogleEventsToLocal "u" demoListing Store.empty).1.syncedCount =
        demoListing.length ∧
      (syncGoogleEventsToLocal "u" demoListing
          (syncGoogleEventsToLocal "u" demoListing
            Store.empty).2).1.syncedCount = demoListing.length ∧
      userCount (syncGoogleEventsToLocal "u" demoListing
          (syncGoogleEventsToLocal "u" demoListing Store.empty).2).2 "u" =
        demoListing.length ∧
      (syncGoogleEventsToLocal "u" demoListing
          (syncGoogleEventsToLocal "u" demoListing
            Store.empty).2).2.events.length =
        (syncGoogleEventsToLocal "u" demoListing
          Store.empty).2.events.length) :=
  ⟨by decide, by decide, by decide,
    C3_sync_idempotent "u" demoListing Store.empty (by decide) (by decide)
      (by decide)⟩

/-- C10: the sync-pass upsert stamps `source = "google"` in both branches:
after a pass absorbing a remote item matching a local row previously
published with `source = "app+google"` on key `(userId, externalId)`,
every row at that key — in particular that one — carries
`source = "google"`. -/
theorem C10_sync_source_overwritten :
    ∀ (u : String) (es : List GoogleEvent) (store : Store)
      (r0 : CalendarEvent) (e : GoogleEvent),
      r0 ∈ store.events → r0.userId = u → r0.source = "app+google" →
      r0.externalId = some e.id → e ∈ es → goodEvent e →
      ∀ r ∈ (syncGoogleEventsToLocal u es store).2.events,
        r.userId = u → r.externalId = some e.id → r.source = "google" := by
  intro u es store r0 e _ _ _ _ he hg
  have h := sourceGoogleAt_foldl_of_mem u es (0, store) e he hg
  simp only [syncGoogleEventsToLocal]
  exact h

/-- Witness for C10: `demoPublishedStore` holds one row published as
`app+google` with external id `e1`; after syncing the matching listing
the updated row carries `source = "google"`. -/
theorem C10_sync_source_overwritten_witness :
    demoPublishedRow ∈ demoPublishedStore.events ∧
    demoPublishedRow.source = "app+google" ∧
    demoOverwrittenRow ∈ (syncGoogleEventsToLocal "u" [demoMatchingEvent]
      demoPublishedStore).2.events ∧
    demoOverwrittenRow.source = "google" :=
  ⟨by decide, by decide, by decide,
    C10_sync_source_overwritten "u" [demoMatchingEvent] demoPublishedStore
      demoPublishedRow demoMatchingEvent (by decide) (by decide) (by decide)
      (by decide) (by decide) (by decide) demoOverwrittenRow (by decide)
      (by decide) (by decide)⟩

end FocusTask
